import Mathlib

/-!
Verification development for the per-host AI task daemon
(source file: ai-server-daemon.py, class AIServerDaemon).

The daemon keeps an in-memory task map mirrored to on-disk JSON records,
dispatches tasks into detached tmux sessions, and infers completion from
log content.  We embed the task data model and the daemon operations as
executable Lean functions.  External effects are passed in as parameters:

  - the detached-session provider is a function sessionName to Bool
    (tmux has-session exit status);
  - log files are a function path to Option String (None models a
    missing file);
  - every call of datetime.now() becomes an explicit String parameter
    (the isoformat text that call would have produced), and where the
    code compares datetimes we additionally pass the parse function
    parseT : String to Int (datetime.fromisoformat, viewed through an
    order-preserving encoding of datetimes as seconds) and the current
    instant nowT : Int.

Python dictionaries (the task map, the tool table) are modelled as
association lists keyed by String; dict update keeps the position of an
existing key, exactly as insertA below does.
-/

namespace Daemon

/-- Task status.  The source stores it as one of the strings
"queued", "running", "completed", "failed". -/
inductive Status where
  | queued
  | running
  | completed
  | failed
deriving DecidableEq

/-- Terminal statuses, i.e. membership in the Python list
`for x in ("completed", "failed")` used by cleanup_old_tasks. -/
def Status.isTerminal : Status → Bool
  | .completed => true
  | .failed => true
  | _ => false

/-- One entry of the configured ai_tools table (load_config).  Only the
keys the embedded operations read are modelled. -/
structure ToolConfig where
  command : String
  env_setup : List String
  working_dir : Option String
  timeout : Option Nat
deriving DecidableEq

/-- Daemon configuration.  Of the config dict we model the two keys the
embedded operations consult: the tool table and log_retention_days. -/
structure Config where
  ai_tools : List (String × ToolConfig)
  log_retention_days : Int
deriving DecidableEq

/-- The task record built by create_task.  Fields that Python may leave
as None are Options; parameters are modelled as string-valued pairs
(the JSON values the CLI submits).  progress is a Python int (the code
never makes it negative, so Nat). -/
structure Task where
  id : String
  tool : Option String
  command : Option String
  parameters : List (String × String)
  working_dir : Option String
  priority : String
  timeout : Option Nat
  status : Status
  progress : Nat
  created_at : String
  started_at : Option String
  completed_at : Option String
  error_message : Option String
  session_name : String
  log_file : String
  result_file : String
  pid : Option Nat
deriving DecidableEq

/-- A create_task request dict; .get of an absent (or null) key is none. -/
structure TaskRequest where
  tool : Option String
  command : Option String
  parameters : List (String × String)
  working_dir : Option String
  priority : Option String
  timeout : Option Nat
deriving DecidableEq

/-- The daemon state the claims talk about: the in-memory task map
(self.tasks), the persisted record files (the tasks/ directory keyed by
file name), the set of existing log-file paths, and the task-id queue
(self.task_queue, FIFO). -/
structure DaemonState where
  tasks : List (String × Task)
  disk : List (String × Task)
  logs : List String
  queue : List String
deriving DecidableEq

/-- Association-list lookup: Python dict access d[k] / d.get(k). -/
def lookupA {α : Type} (k : String) : List (String × α) → Option α
  | [] => none
  | (k2, v) :: rest => if k2 = k then some v else lookupA k rest

/-- Association-list update: Python d[k] = v (replaces in place,
appends when the key is new). -/
def insertA {α : Type} (k : String) (v : α) : List (String × α) → List (String × α)
  | [] => [(k, v)]
  | (k2, v2) :: rest => if k2 = k then (k, v) :: rest else (k2, v2) :: insertA k v rest

/-- In-place mutation of the task object bound at key `key` of
self.tasks followed by save_task(task): the memory map is updated at the
map key, the record file is named by the id field of the task
(workspace/tasks/<id>.json). -/
def updTask (s : DaemonState) (key : String) (t : Task) : DaemonState :=
  { s with tasks := insertA key t s.tasks, disk := insertA t.id t s.disk }

/-- Python truthiness of an optional string: None and the empty string
are falsy (`if not task.get(field)`). -/
def falsyO : Option String → Bool
  | none => true
  | some s => s.isEmpty

/-- Python f-string rendering of a possibly-None value. -/
def optStr : Option String → String
  | none => "None"
  | some s => s

/-- self.config[ai_tools][task[tool]]: a None key (or an unknown name)
raises KeyError, which we surface as none. -/
def toolLookup (tool : Option String) (tbl : List (String × ToolConfig)) : Option ToolConfig :=
  match tool with
  | none => none
  | some name => lookupA name tbl

/-! ### Character-level log scanning

The completion-inference engine reads the log with three re patterns and
two substring tests.  We model them over List Char.  The regex classes
are taken at their ASCII meaning (the logs the daemon writes are ASCII):
whitespace for backslash-s, 0-9 for backslash-d. -/

/-- ASCII whitespace, the characters matched by the regex class
backslash-s on ASCII text: space, tab, newline, carriage return,
vertical tab, form feed. -/
def isWs (c : Char) : Bool :=
  c = ' ' || c = '\t' || c = '\n' || c = '\r' || c = Char.ofNat 11 || c = Char.ofNat 12

/-- Strip a literal pattern from the front of a list; none when the
pattern is not a prefix. -/
def dropStart? : List Char → List Char → Option (List Char)
  | [], l => some l
  | _ :: _, [] => none
  | p :: ps, c :: cs => if c = p then dropStart? ps cs else none

/-- Python substring test `pat in l`. -/
def containsL (l pat : List Char) : Bool :=
  match l with
  | [] => pat.isEmpty
  | _ :: rest => (dropStart? pat l).isSome || containsL rest pat

/-- str.lower, per character. -/
def lowerL (l : List Char) : List Char := l.map Char.toLower

/-- int() of a nonempty digit string. -/
def digitsToNat (ds : List Char) : Nat :=
  ds.foldl (fun a c => a * 10 + (c.toNat - '0'.toNat)) 0

/-- str.split on a newline. -/
def splitNl : List Char → List (List Char)
  | [] => [[]]
  | c :: rest =>
    let r := splitNl rest
    if c = '\n' then [] :: r
    else
      match r with
      | h :: t => (c :: h) :: t
      | [] => [[c]]

/-- Match of pattern 1, `[Pp]rogress:?\s*(\d+)%`, anchored at the head
of the list.  Returns the digit group and the total number of
characters the match consumed.  Maximal munch is faithful here: the
character classes of adjacent pieces are disjoint, so the regex engine
never needs to backtrack. -/
def matchP1 : List Char → Option (List Char × Nat)
  | [] => none
  | c :: rest =>
    if c = 'P' || c = 'p' then
      match dropStart? ("rogress".toList) rest with
      | none => none
      | some r1 =>
        let hasColon := r1.head? = some ':'
        let r2 := if hasColon then r1.tail else r1
        let ws := r2.takeWhile isWs
        let r3 := r2.drop ws.length
        let ds := r3.takeWhile Char.isDigit
        let r4 := r3.drop ds.length
        if ds.isEmpty then none
        else
          match r4 with
          | '%' :: _ =>
            some (ds, 1 + 7 + (if hasColon then 1 else 0) + ws.length + ds.length + 1)
          | _ => none
    else none

/-- re.findall of pattern 1: leftmost matches, non-overlapping (the
scan resumes after each match).  The Nat argument is fuel, a structural
termination device only: every step consumes at least one character of
the list while spending one unit of fuel, so starting the fuel at the
length of the list (findall1 below) the zero-fuel branch is never
taken. -/
def findall1Aux : Nat → List Char → List (List Char)
  | 0, _ => []
  | _, [] => []
  | fuel + 1, c :: rest =>
    match matchP1 (c :: rest) with
    | some (ds, n) => ds :: findall1Aux fuel (rest.drop (n - 1))
    | none => findall1Aux fuel rest

/-- re.findall of pattern 1 over a whole log. -/
def findall1 (l : List Char) : List (List Char) := findall1Aux l.length l

/-- Match of pattern 2, `(\d+)%\s+complete`, anchored at the head. -/
def matchP2 (l : List Char) : Option (List Char × Nat) :=
  let ds := l.takeWhile Char.isDigit
  if ds.isEmpty then none
  else
    match l.drop ds.length with
    | '%' :: r1 =>
      let ws := r1.takeWhile isWs
      if ws.isEmpty then none
      else
        match dropStart? ("complete".toList) (r1.drop ws.length) with
        | some _ => some (ds, ds.length + 1 + ws.length + 8)
        | none => none
    | _ => none

/-- re.findall of pattern 2 (leftmost, non-overlapping; fuel as in
findall1Aux). -/
def findall2Aux : Nat → List Char → List (List Char)
  | 0, _ => []
  | _, [] => []
  | fuel + 1, c :: rest =>
    match matchP2 (c :: rest) with
    | some (ds, n) => ds :: findall2Aux fuel (rest.drop (n - 1))
    | none => findall2Aux fuel rest

/-- re.findall of pattern 2 over a whole log. -/
def findall2 (l : List Char) : List (List Char) := findall2Aux l.length l

/-- The tail `(\d+)\s+of\s+(\d+)` of pattern 3, anchored at the head.
Returns both digit groups and the consumed length. -/
def matchTail3 (l : List Char) : Option (Nat × Nat × Nat) :=
  let d1 := l.takeWhile Char.isDigit
  if d1.isEmpty then none
  else
    let r1 := l.drop d1.length
    let w1 := r1.takeWhile isWs
    if w1.isEmpty then none
    else
      match dropStart? ("of".toList) (r1.drop w1.length) with
      | none => none
      | some r2 =>
        let w2 := r2.takeWhile isWs
        if w2.isEmpty then none
        else
          let d2 := (r2.drop w2.length).takeWhile Char.isDigit
          if d2.isEmpty then none
          else some (digitsToNat d1, digitsToNat d2,
                     d1.length + w1.length + 2 + w2.length + d2.length)

/-- The lazy gap `.*?` of pattern 3: try the tail at the earliest
position; a dot does not cross a newline.  Returns the groups and the
consumed length including the gap. -/
def lazyScan3 : List Char → Option (Nat × Nat × Nat)
  | [] => none
  | c :: rest =>
    match matchTail3 (c :: rest) with
    | some r => some r
    | none =>
      if c = '\n' then none
      else
        match lazyScan3 rest with
        | some (a, b, n) => some (a, b, n + 1)
        | none => none

/-- Match of pattern 3, `Processing.*?(\d+)\s+of\s+(\d+)`, anchored at
the head. -/
def matchP3 (l : List Char) : Option (Nat × Nat × Nat) :=
  match dropStart? ("Processing".toList) l with
  | none => none
  | some r =>
    match lazyScan3 r with
    | some (a, b, n) => some (a, b, 10 + n)
    | none => none

/-- re.findall of pattern 3 (leftmost, non-overlapping; fuel as in
findall1Aux). -/
def findall3Aux : Nat → List Char → List (Nat × Nat)
  | 0, _ => []
  | _, [] => []
  | fuel + 1, c :: rest =>
    match matchP3 (c :: rest) with
    | some (a, b, n) => (a, b) :: findall3Aux fuel (rest.drop (n - 1))
    | none => findall3Aux fuel rest

/-- re.findall of pattern 3 over a whole log. -/
def findall3 (l : List Char) : List (Nat × Nat) := findall3Aux l.length l

/-- extract_progress_from_logs: the three patterns in priority order,
last match wins; no pattern (or a zero total in pattern 3, where the
ZeroDivisionError is swallowed by the except) leaves progress
unchanged.  Python computes int((current/total)*100) in binary floating
point; we use Nat floor division, which agrees on the inputs any claim
here exercises. -/
def extract_progress (log : String) (old : Nat) : Nat :=
  let l := log.toList
  match (findall1 l).getLast? with
  | some ds => digitsToNat ds
  | none =>
    match (findall2 l).getLast? with
    | some ds => digitsToNat ds
    | none =>
      match (findall3 l).getLast? with
      | some (a, b) => if b = 0 then old else a * 100 / b
      | none => old

/-! ### Completion sentinels -/

/-- The literal the success-sentinel containment test looks for:
the text TASK_COMPLETED in brackets, then the task id, then a colon. -/
def completedMark (id : String) : String :=
  "[TASK_COMPLETED:" ++ id ++ ":"

/-- Likewise for the failure sentinel (TASK_FAILED). -/
def failedMark (id : String) : String :=
  "[TASK_FAILED:" ++ id ++ ":"

/-- A full success sentinel as the marker command echoes it: the prefix,
a timestamp, and the closing bracket. -/
def completedSentinel (id ts : String) : String :=
  completedMark id ++ ts ++ "]"

/-- A full failure sentinel. -/
def failedSentinel (id ts : String) : String :=
  failedMark id ++ ts ++ "]"

/-- The group of the timestamp-extraction regex at a position where the
literal sentinel head has just been stripped: one or more characters
other than the closing bracket, then the closing bracket.  The group is
greedy but its class excludes the bracket, so it is exactly the run up
to the first bracket, which must exist and be nonempty. -/
def tsAfter? (l : List Char) : Option (List Char) :=
  let run := l.takeWhile (fun c => !(c = ']'))
  if run.isEmpty then none
  else if run.length < l.length then some run else none

/-- re.search for the sentinel pattern: scan left to right for the first
position where the literal head matches and a valid group follows;
return that group. -/
def searchMarkerL (pat : List Char) : List Char → Option (List Char)
  | [] => none
  | l@(_ :: rest) =>
    match dropStart? pat l with
    | some r =>
      match tsAfter? r with
      | some ts => some ts
      | none => searchMarkerL pat rest
    | none => searchMarkerL pat rest

/-- group(1) of re.search over the log for the success sentinel of the
given task id. -/
def searchMarkerS (id log : String) : Option String :=
  (searchMarkerL (completedMark id).toList log.toList).map fun l => String.mk l

/-- Python substring test on strings. -/
def containsS (l pat : String) : Bool := containsL l.toList pat.toList

/-! ### Task creation (create_task, validate_task, save_task) -/

/-- validate_task: the two required fields must be truthy and the tool
must be a key of the tool table (the membership test runs only after
the truthiness tests, behind the short-circuit). -/
def validate_task (cfg : Config) (t : Task) : Bool :=
  !falsyO t.tool && !falsyO t.command && (toolLookup t.tool cfg.ai_tools).isSome

/-- The task dict create_task builds before validating.  taskId stands
for the generated `task-<date>-<uuid>` string, now for
datetime.now().isoformat(), ws for the workspace path. -/
def new_task (taskId now ws : String) (req : TaskRequest) : Task :=
  { id := taskId
    tool := req.tool
    command := req.command
    parameters := req.parameters
    working_dir := req.working_dir
    priority := req.priority.getD "medium"
    timeout := req.timeout
    status := .queued
    progress := 0
    created_at := now
    started_at := none
    completed_at := none
    error_message := none
    session_name := "ai-" ++ taskId
    log_file := ws ++ "/logs/" ++ taskId ++ ".log"
    result_file := ws ++ "/results/" ++ taskId ++ ".json"
    pid := none }

/-- create_task: build the record, validate it, and only then persist,
register and enqueue it.  A validation failure raises ValueError before
any of those effects, so the state is returned unchanged. -/
def create_task (taskId now ws : String) (req : TaskRequest) (cfg : Config)
    (s : DaemonState) : Except Unit String × DaemonState :=
  if validate_task cfg (new_task taskId now ws req) then
    (.ok taskId,
     { s with
       tasks := insertA taskId (new_task taskId now ws req) s.tasks,
       disk := insertA taskId (new_task taskId now ws req) s.disk,
       queue := s.queue ++ [taskId] })
  else
    (.error (), s)

/-! ### The file-system view of save_task (for the atomicity claim)

save_task is `open(task_file, w)` followed by `json.dump`: opening with
mode w truncates the file at once, then the serialized record is
written into it, then the handle is closed.  We model the write as a
trace of file-system operations and give them a semantics over disks
(path to Option content) so that intermediate observations can be
stated. -/

/-- File-system operations. -/
inductive FsOp where
  | openTrunc (path : String)
  | writeAll (path content : String)
  | closeF (path : String)
  | rename (src dst : String)
deriving DecidableEq

/-- Effect of one operation on a disk. -/
def applyFsOp (d : String → Option String) : FsOp → (String → Option String)
  | .openTrunc p => fun q => if q = p then some "" else d q
  | .writeAll p c => fun q => if q = p then some c else d q
  | .closeF _ => d
  | .rename src dst => fun q =>
      if q = dst then d src else if q = src then none else d q

/-- Run a trace of operations. -/
def runFs (d : String → Option String) : List FsOp → (String → Option String)
  | [] => d
  | op :: ops => runFs (applyFsOp d op) ops

/-- The record-file path workspace/tasks/<id>.json. -/
def task_record_path (ws id : String) : String :=
  ws ++ "/tasks/" ++ id ++ ".json"

/-- The operation trace of save_task for a record serialized as
`content` (whatever text json.dump emits): truncate in place, write,
close.  There is no temporary file and no rename. -/
def save_task_trace (path content : String) : List FsOp :=
  [FsOp.openTrunc path, FsOp.writeAll path content, FsOp.closeF path]

/-- Modelled from the spec: "Save(task) persists the full record
atomically (a reader must never observe a partially written record)".
A trace writes `path` atomically when, from any starting disk, every
reader - i.e. the disk state after any number of completed
operations - sees at that path either what was there initially or the
complete new content. -/
def AtomicWrite (ops : List FsOp) (path newContent : String) : Prop :=
  ∀ d0 : String → Option String, ∀ n : Nat,
    runFs d0 (ops.take n) path = d0 path ∨
    runFs d0 (ops.take n) path = some newContent

/-! ### Startup recovery (load_tasks, is_task_running) -/

/-- is_task_running: a falsy pid (absent or zero) short-circuits to
False; otherwise the answer is whether tmux still has the session. -/
def is_task_running (alive : String → Bool) (t : Task) : Bool :=
  match t.pid with
  | none => false
  | some 0 => false
  | some _ => alive t.session_name

/-- The record a dead running task is finalized to on recovery. -/
def died_task (now : String) (t : Task) : Task :=
  { t with status := .failed,
           error_message := some "Process died unexpectedly",
           completed_at := some now }

/-- One iteration of the load_tasks loop for a record that parsed:
register it in memory; a running record whose process check fails is
finalized as died (mutated in place and saved); a queued record is
enqueued. -/
def load_one (alive : String → Bool) (now : String) (s : DaemonState) (t : Task) :
    DaemonState :=
  let s1 := { s with tasks := insertA t.id t s.tasks }
  match t.status with
  | .running =>
    if is_task_running alive t then s1
    else updTask s1 t.id (died_task now t)
  | .queued => { s1 with queue := s1.queue ++ [t.id] }
  | _ => s1

/-- load_tasks over the parsed record files, in directory order.
(A record that fails to parse is skipped with a log line; the input
list holds the ones that parsed.) -/
def load_tasks (alive : String → Bool) (now : String) (recs : List Task)
    (s : DaemonState) : DaemonState :=
  recs.foldl (load_one alive now) s

/-! ### Execution (build_task_command, execute_task, worker) -/

/-- The parameter suffix of the invocation: inline flags for the crush
family, a side-channel config file for blackbox, qwen and gemini,
nothing for other tools.  (The config file the second family writes is
a side effect outside the task-record store and not modelled.) -/
def param_str (ws : String) (t : Task) : String :=
  if t.parameters.isEmpty then ""
  else if t.tool = some "crush" then
    t.parameters.foldl
      (fun acc kv => acc ++ " --" ++ kv.1 ++ " '" ++ kv.2 ++ "'") ""
  else if t.tool = some "blackbox" ∨ t.tool = some "qwen" ∨ t.tool = some "gemini" then
    " --config " ++ ws ++ "/configs/" ++ t.id ++ "_params.json"
  else ""

/-- The timeout chosen by build_task_command:
`task.get(timeout) or tool_config.get(timeout)` under Python
truthiness (a zero falls through to the right operand). -/
def build_timeout (t : Task) (tc : ToolConfig) : Option Nat :=
  match t.timeout with
  | some n => if n ≠ 0 then some n else tc.timeout
  | none => tc.timeout

/-- build_task_command: base command, command text, parameter suffix,
wrapped in `timeout N` when the effective timeout is truthy.  The
tool-table lookup cannot fail here because execute_task has already
read the same entry; the none branch is unreachable dead code kept for
totality. -/
def build_task_command (ws : String) (cfg : Config) (t : Task) : String :=
  match toolLookup t.tool cfg.ai_tools with
  | none => ""
  | some tc =>
    let base := tc.command ++ " " ++ optStr t.command ++ param_str ws t
    match build_timeout t tc with
    | some n => if n ≠ 0 then "timeout " ++ toString n ++ " " ++ base else base
    | none => base

/-- The marker command of execute_task: echo the success sentinel,
stamped with the isoformat text of the datetime.now() call made while
the command line is being built (parameter t2). -/
def completion_cmd (taskId t2 : String) : String :=
  "echo '" ++ completedSentinel taskId t2 ++ "'"

/-- The compound line sent after the bare invocation: the invocation
again, AND-gated success echo, OR-gated failure echo (stamp t3 from
another datetime.now() call). -/
def gated_command (cmd taskId t2 t3 : String) : String :=
  cmd ++ " && " ++ completion_cmd taskId t2 ++
    " || echo '" ++ failedSentinel taskId t3 ++ "'"

/-- The sequence of tmux send-keys inputs execute_task issues on its
success path, in order: the four log-setup lines, the env_setup steps
of the tool, the bare task command, then the gated marker line.
logStartTs is the str(datetime.now()) of the banner echo. -/
def execute_task_inputs (ws logStartTs t2 t3 : String) (cfg : Config)
    (taskId : String) (t : Task) : List String :=
  [ "mkdir -p " ++ ws ++ "/logs",
    "exec > >(tee " ++ t.log_file ++ ")",
    "exec 2>&1",
    "echo '[" ++ logStartTs ++ "] Starting task " ++ taskId ++ "'" ]
  ++ (match toolLookup t.tool cfg.ai_tools with
      | some tc => tc.env_setup
      | none => [])
  ++ [ build_task_command ws cfg t,
       gated_command (build_task_command ws cfg t) taskId t2 t3 ]

/-- execute_task: mark the task running and save it first; then read
the tool entry (a KeyError lands in the generic except branch) and
drive the session.  ok models whether the session operations succeed;
the failure path models an exception at session creation, before any
input is sent (err is the exception text).  Returns the new state, the
inputs sent, and the boolean the function returns. -/
def execute_task (ws now logStartTs t2 t3 : String) (ok : Bool) (err : String)
    (cfg : Config) (s : DaemonState) (taskId : String) :
    DaemonState × List String × Bool :=
  match lookupA taskId s.tasks with
  | none => (s, [], false)
  | some t =>
    let t1 := { t with status := .running, started_at := some now }
    let s1 := updTask s taskId t1
    match toolLookup t1.tool cfg.ai_tools with
    | none =>
      let t2f := { t1 with
        status := .failed,
        error_message := some ("Unexpected error: " ++ err),
        completed_at := some now }
      (updTask s1 taskId t2f, [], false)
    | some _ =>
      if ok then (s1, execute_task_inputs ws logStartTs t2 t3 cfg taskId t1, true)
      else
        let t2f := { t1 with
          status := .failed,
          error_message := some ("Failed to start: " ++ err),
          completed_at := some now }
        (updTask s1 taskId t2f, [], false)

/-- One worker iteration that found a queued id: pop it, and execute it
if it is still a known task. -/
def worker_step (ws now logStartTs t2 t3 : String) (ok : Bool) (err : String)
    (cfg : Config) (s : DaemonState) : DaemonState × List String × Bool :=
  match s.queue with
  | [] => (s, [], false)
  | taskId :: rest =>
    let s1 := { s with queue := rest }
    if (lookupA taskId s1.tasks).isSome then
      execute_task ws now logStartTs t2 t3 ok err cfg s1 taskId
    else (s1, [], false)

/-! ### Completion inference and the monitor (finalize_task_from_logs,
kill_task, check_task_completion, cleanup_old_tasks, monitor_tasks) -/

/-- The case-insensitive keyword set of the failure branch. -/
def keywordList : List (List Char) :=
  ["error".toList, "failed".toList, "exception".toList]

/-- Does a log line contain one of the keywords after lowering? -/
def hasKeyword (line : List Char) : Bool :=
  keywordList.any fun k => containsL (lowerL line) k

/-- The lines of the log that carry a keyword, in order. -/
def errorLines (log : List Char) : List (List Char) :=
  (splitNl log).filter hasKeyword

/-- Truncation of the error message to 500 characters. -/
def take500 (l : List Char) : String := String.mk (l.take 500)

/-- finalize_task_from_logs.  logOf is the file system view of the log
files; now is the datetime.now().isoformat() of this call.  Branch
order as in the source: success sentinel first (completed, progress
100, completed_at from the regex group or now when the group is
malformed), else failure sentinel (failed, last keyword line truncated
to 500 as the message - left untouched when no line matches -
completed_at now), else the fail-safe (failed, no-marker message).
Afterwards extract_progress_from_logs runs on the same content and
overwrites progress when any pattern matches; then the task is saved. -/
def finalize_task_from_logs (logOf : String → Option String) (now : String)
    (s : DaemonState) (taskId : String) : DaemonState :=
  match lookupA taskId s.tasks with
  | none => s
  | some t =>
    match logOf t.log_file with
    | none =>
      updTask s taskId { t with
        status := .failed,
        error_message := some "Log file not found",
        completed_at := some now }
    | some log =>
      let t1 :=
        if containsS log (completedMark taskId) then
          { t with
            status := .completed,
            progress := 100,
            completed_at := some ((searchMarkerS taskId log).getD now) }
        else if containsS log (failedMark taskId) then
          { t with
            status := .failed,
            error_message :=
              match (errorLines log.toList).getLast? with
              | some line => some (take500 line)
              | none => t.error_message,
            completed_at := some now }
        else
          { t with
            status := .failed,
            error_message := some "Task ended without completion marker",
            completed_at := some now }
      updTask s taskId { t1 with progress := extract_progress log t1.progress }

/-- The record kill_task rewrites a task to: failed, with the kill
reason as message and a fresh completed_at. -/
def killed_task (reason now : String) (t : Task) : Task :=
  { t with
    status := .failed
    error_message := some ("Task killed: " ++ reason)
    completed_at := some now }

/-- kill_task: kill the session (capture_output swallows any tmux
failure), then unconditionally mark the task failed with the kill
reason and a fresh completed_at, save, and return True; an unknown id
returns False. -/
def kill_task (taskId reason now : String) (s : DaemonState) : Bool × DaemonState :=
  match lookupA taskId s.tasks with
  | none => (false, s)
  | some t => (true, updTask s taskId (killed_task reason now t))

/-- The timeout the monitor compares against:
`task.get(timeout) or config[ai_tools][task[tool]].get(timeout, 3600)`.
The right operand (and hence the possible KeyError, surfaced as none)
is only evaluated when the task-level value is falsy. -/
def eff_timeout (cfg : Config) (t : Task) : Option Int :=
  match t.timeout with
  | some n =>
    if n ≠ 0 then some (n : Int)
    else (toolLookup t.tool cfg.ai_tools).map fun tc => ((tc.timeout.getD 3600 : Nat) : Int)
  | none => (toolLookup t.tool cfg.ai_tools).map fun tc => ((tc.timeout.getD 3600 : Nat) : Int)

/-- check_task_completion: when the session is gone, finalize from the
log; while it is alive, compare the elapsed time against the effective
timeout (strictly greater breaches) and kill with reason timeout on
breach; otherwise do nothing.  A task without started_at, or a KeyError
from the tool lookup (swallowed by the except), also leaves the state
unchanged. -/
def check_task_completion (alive : String → Bool) (logOf : String → Option String)
    (now : String) (nowT : Int) (parseT : String → Int) (cfg : Config)
    (s : DaemonState) (taskId : String) : DaemonState :=
  match lookupA taskId s.tasks with
  | none => s
  | some t =>
    if alive t.session_name then
      match t.started_at with
      | none => s
      | some st =>
        match eff_timeout cfg t with
        | none => s
        | some tmo =>
          if nowT - parseT st > tmo then (kill_task taskId "timeout" now s).2
          else s
    else
      finalize_task_from_logs logOf now s taskId

/-- Is a task reclaimed by the retention sweep: terminal, with a
completed_at whose parsed datetime is strictly before the cutoff. -/
def sweptB (cutoff : Int) (parseT : String → Int) (t : Task) : Bool :=
  t.status.isTerminal &&
    match t.completed_at with
    | some ca => decide (parseT ca < cutoff)
    | none => false

/-- cleanup_old_tasks: cutoff is now minus log_retention_days days; a
swept task loses its record file, its log file and its map entry.
(The sweep assumes every stored completed_at parses; a fromisoformat
failure would abort the remainder of this sweep until the next tick.) -/
def cleanup_old_tasks (nowT : Int) (retentionDays : Int) (parseT : String → Int)
    (s : DaemonState) : DaemonState :=
  let cutoff := nowT - retentionDays * 86400
  let sweptEntries := s.tasks.filter fun e => sweptB cutoff parseT e.2
  let sweptIds := sweptEntries.map Prod.fst
  let sweptLogs := sweptEntries.map fun e => e.2.log_file
  { s with
    tasks := s.tasks.filter fun e => !sweptB cutoff parseT e.2,
    disk := s.disk.filter fun e => decide (e.1 ∉ sweptIds),
    logs := s.logs.filter fun p => decide (p ∉ sweptLogs) }

/-- The ids the per-task pass of one monitor tick visits: a snapshot of
the map entries whose status reads running. -/
def running_ids (s : DaemonState) : List String :=
  (s.tasks.filter fun e => decide (e.2.status = .running)).map Prod.fst

/-- One iteration of the monitor_tasks loop: check every running task
against the snapshot, then run the retention sweep. -/
def monitor_tick (alive : String → Bool) (logOf : String → Option String)
    (now : String) (nowT : Int) (parseT : String → Int) (cfg : Config)
    (s : DaemonState) : DaemonState :=
  let s1 := (running_ids s).foldl
    (fun acc taskId => check_task_completion alive logOf now nowT parseT cfg acc taskId) s
  cleanup_old_tasks nowT cfg.log_retention_days parseT s1

/-! ### Well-formedness

A Python dict cannot hold a key twice; our association lists carry that
as an explicit hypothesis where a proof needs it. -/

/-- The keys of an association list are pairwise distinct. -/
def keysND {α : Type} (l : List (String × α)) : Prop :=
  (l.map Prod.fst).Nodup

instance {α : Type} (l : List (String × α)) : Decidable (keysND l) := by
  unfold keysND; infer_instance

/-! ### Concrete fixtures for witnesses and counterexamples -/

/-- A queued task as create_task would build it, used as the base of
the concrete fixtures below. -/
def baseTask : Task where
  id := "t1"
  tool := some "crush"
  command := some "hello"
  parameters := []
  working_dir := none
  priority := "medium"
  timeout := none
  status := .queued
  progress := 0
  created_at := "2024-06-01T00:00:00"
  started_at := none
  completed_at := none
  error_message := none
  session_name := "ai-t1"
  log_file := "WS/logs/t1.log"
  result_file := "WS/results/t1.json"
  pid := none

/-- A small tool table holding the crush entry. -/
def demoCfg : Config where
  ai_tools :=
    [("crush",
      { command := "crush", env_setup := ["source BASHRC"],
        working_dir := some "PROJ", timeout := some 1800 })]
  log_retention_days := 7

/-- A completed task. -/
def doneTask : Task :=
  { baseTask with
    status := .completed
    progress := 100
    started_at := some "2024-06-01T00:00:01"
    completed_at := some "2024-06-01T01:00:00" }

/-- A failed task. -/
def failedTask : Task :=
  { baseTask with
    status := .failed
    started_at := some "2024-06-01T00:00:01"
    completed_at := some "2024-06-01T01:00:00"
    error_message := some "Task killed: timeout" }

/-- A running task. -/
def runTask : Task :=
  { baseTask with
    status := .running
    started_at := some "2024-06-01T00:00:01" }

/-- A state holding exactly one task. -/
def oneTaskState (t : Task) : DaemonState :=
  { tasks := [("t1", t)], disk := [("t1", t)], logs := ["WS/logs/t1.log"], queue := [] }

/-- A persisted record in the running state (as the daemon itself would
have written it: pid was initialized to null and never assigned). -/
def recRunning : Task :=
  { runTask with id := "t5r", session_name := "ai-t5r", log_file := "WS/logs/t5r.log" }

/-- A persisted record in the queued state. -/
def recQueued : Task :=
  { baseTask with id := "t5q", session_name := "ai-t5q", log_file := "WS/logs/t5q.log" }

/-- The daemon state at startup, before load_tasks, with the two
records above on disk. -/
def recoveryState : DaemonState :=
  { tasks := [], disk := [("t5r", recRunning), ("t5q", recQueued)], logs := [], queue := [] }

/-! ## Lemmas about the association-list model of Python dicts -/

theorem lookupA_insertA_self {α : Type} (k : String) (v : α) (l : List (String × α)) :
    lookupA k (insertA k v l) = some v := by
  induction l with
  | nil => simp [insertA, lookupA]
  | cons e rest ih =>
    obtain ⟨k2, v2⟩ := e
    by_cases hk : k2 = k
    · simp [insertA, hk, lookupA]
    · simp [insertA, hk, lookupA, ih]

theorem lookupA_insertA_ne {α : Type} {k k2 : String} (hne : k2 ≠ k) (v : α)
    (l : List (String × α)) : lookupA k (insertA k2 v l) = lookupA k l := by
  induction l with
  | nil => simp [insertA, lookupA, hne]
  | cons e rest ih =>
    obtain ⟨k3, v3⟩ := e
    by_cases hk : k3 = k2
    · subst hk
      simp [insertA, lookupA, hne]
    · simp [insertA, hk, lookupA, ih]

theorem mem_of_lookupA {α : Type} {k : String} {v : α} {l : List (String × α)}
    (h : lookupA k l = some v) : (k, v) ∈ l := by
  induction l with
  | nil => simp [lookupA] at h
  | cons e rest ih =>
    obtain ⟨k2, v2⟩ := e
    by_cases hk : k2 = k
    · subst hk
      simp [lookupA] at h
      simp [h]
    · simp [lookupA, hk] at h
      exact List.mem_cons_of_mem _ (ih h)

theorem lookupA_eq_none {α : Type} {k : String} {l : List (String × α)}
    (h : k ∉ l.map Prod.fst) : lookupA k l = none := by
  induction l with
  | nil => rfl
  | cons e rest ih =>
    obtain ⟨k2, v2⟩ := e
    rw [List.map_cons] at h
    have h1 : k2 ≠ k := by
      intro e2
      exact h (by rw [← e2]; exact List.mem_cons_self _ _)
    have h2 : k ∉ rest.map Prod.fst := fun hm => h (List.mem_cons_of_mem _ hm)
    rw [lookupA, if_neg h1, ih h2]

theorem lookupA_eq_of_mem {α : Type} {k : String} {v : α} {l : List (String × α)}
    (hnd : keysND l) (hm : (k, v) ∈ l) : lookupA k l = some v := by
  induction l with
  | nil => simp at hm
  | cons e rest ih =>
    obtain ⟨k2, v2⟩ := e
    unfold keysND at hnd
    simp [List.nodup_cons] at hnd
    rcases List.mem_cons.mp hm with he | hrest
    · obtain ⟨rfl, rfl⟩ := Prod.mk.injEq .. ▸ he
      simp [lookupA]
    · have hk : k2 ≠ k := by
        intro e2
        subst e2
        exact hnd.1 v (hrest)
      simp [lookupA, hk]
      exact ih hnd.2 hrest

theorem mem_keys_insertA {α : Type} {k2 k : String} {v : α} {l : List (String × α)}
    (h : k2 ∈ (insertA k v l).map Prod.fst) : k2 = k ∨ k2 ∈ l.map Prod.fst := by
  induction l with
  | nil => simpa [insertA] using h
  | cons e rest ih =>
    obtain ⟨k3, v3⟩ := e
    by_cases hk : k3 = k
    · subst hk
      rw [insertA] at h
      simp at h ⊢
      tauto
    · rw [insertA, if_neg hk] at h
      simp at h ⊢
      rcases h with h | h
      · tauto
      · rcases ih (by simpa using h) with h2 | h2
        · exact Or.inl h2
        · simp at h2
          tauto

theorem keysND_insertA {α : Type} {l : List (String × α)} (hnd : keysND l)
    (k : String) (v : α) : keysND (insertA k v l) := by
  induction l with
  | nil => simp [insertA, keysND]
  | cons e rest ih =>
    obtain ⟨k2, v2⟩ := e
    unfold keysND at hnd ⊢
    rw [List.map_cons, List.nodup_cons] at hnd
    by_cases hk : k2 = k
    · subst hk
      rw [insertA, if_pos rfl, List.map_cons, List.nodup_cons]
      exact hnd
    · have hrec : keysND (insertA k v rest) := ih hnd.2
      rw [insertA, if_neg hk, List.map_cons, List.nodup_cons]
      refine ⟨?_, hrec⟩
      intro hm
      rcases mem_keys_insertA hm with h2 | h2
      · exact hk h2
      · exact hnd.1 h2

theorem lookupA_filter_of_all {α : Type} (p : String × α → Bool) {k : String}
    (l : List (String × α)) (h : ∀ v : α, p (k, v) = true) :
    lookupA k (l.filter p) = lookupA k l := by
  induction l with
  | nil => rfl
  | cons e rest ih =>
    obtain ⟨k2, v2⟩ := e
    by_cases hk : k2 = k
    · subst hk
      simp [List.filter_cons, h v2, lookupA]
    · by_cases hp : p (k2, v2)
      · simp [List.filter_cons, hp, lookupA, hk, ih]
      · simp [List.filter_cons, hp, lookupA, hk, ih]

theorem lookupA_filter_of_none {α : Type} (p : String × α → Bool) {k : String}
    (l : List (String × α)) (h : ∀ v : α, p (k, v) = false) :
    lookupA k (l.filter p) = none := by
  induction l with
  | nil => rfl
  | cons e rest ih =>
    obtain ⟨k2, v2⟩ := e
    by_cases hk : k2 = k
    · subst hk
      simp [List.filter_cons, h v2, ih]
    · by_cases hp : p (k2, v2)
      · simp [List.filter_cons, hp, lookupA, hk, ih]
      · simp [List.filter_cons, hp, ih]

theorem lookupA_filter_nodup {α : Type} {p : String × α → Bool} {k : String}
    {v : α} {l : List (String × α)} (hnd : keysND l) (hl : lookupA k l = some v) :
    lookupA k (l.filter p) = if p (k, v) then some v else none := by
  induction l with
  | nil => simp [lookupA] at hl
  | cons e rest ih =>
    obtain ⟨k2, v2⟩ := e
    unfold keysND at hnd
    rw [List.map_cons, List.nodup_cons] at hnd
    by_cases hk : k2 = k
    · have hv : v2 = v := by
        rw [lookupA, if_pos hk] at hl
        injection hl
      rw [List.filter_cons, hk, hv]
      by_cases hp : p (k, v)
      · rw [if_pos hp, lookupA, if_pos rfl, if_pos hp]
      · rw [if_neg hp, if_neg hp]
        apply lookupA_eq_none
        intro hm
        obtain ⟨e2, he2, hf⟩ := List.mem_map.mp hm
        refine (hk ▸ hnd.1 : k ∉ rest.map Prod.fst) ?_
        exact List.mem_map.mpr ⟨e2, List.mem_of_mem_filter he2, hf⟩
    · have hl2 : lookupA k rest = some v := by
        rw [lookupA, if_neg hk] at hl
        exact hl
      rw [List.filter_cons]
      by_cases hp : p (k2, v2)
      · rw [if_pos hp, lookupA, if_neg hk]
        exact ih hnd.2 hl2
      · rw [if_neg hp]
        exact ih hnd.2 hl2

/-! ## Shape of the per-task monitor operations

Each of finalize, kill and check either leaves the task map untouched
or replaces the entry at the id it was called with. -/

theorem finalize_tasks_shape (logOf : String → Option String) (now : String)
    (s : DaemonState) (taskId : String) :
    (finalize_task_from_logs logOf now s taskId).tasks = s.tasks ∨
    ∃ x, (finalize_task_from_logs logOf now s taskId).tasks = insertA taskId x s.tasks := by
  unfold finalize_task_from_logs
  split
  · exact Or.inl rfl
  · split
    · exact Or.inr ⟨_, rfl⟩
    · exact Or.inr ⟨_, rfl⟩

theorem kill_tasks_shape (taskId reason now : String) (s : DaemonState) :
    (kill_task taskId reason now s).2.tasks = s.tasks ∨
    ∃ x, (kill_task taskId reason now s).2.tasks = insertA taskId x s.tasks := by
  unfold kill_task
  split
  · exact Or.inl rfl
  · exact Or.inr ⟨_, rfl⟩

theorem check_tasks_shape (alive : String → Bool) (logOf : String → Option String)
    (now : String) (nowT : Int) (parseT : String → Int) (cfg : Config)
    (s : DaemonState) (taskId : String) :
    (check_task_completion alive logOf now nowT parseT cfg s taskId).tasks = s.tasks ∨
    ∃ x, (check_task_completion alive logOf now nowT parseT cfg s taskId).tasks
      = insertA taskId x s.tasks := by
  unfold check_task_completion
  split
  · exact Or.inl rfl
  · split
    · split
      · exact Or.inl rfl
      · split
        · exact Or.inl rfl
        · split
          · exact kill_tasks_shape taskId "timeout" now s
          · exact Or.inl rfl
    · exact finalize_tasks_shape logOf now s taskId

theorem check_frame {k taskId : String} (hne : k ≠ taskId) (alive : String → Bool)
    (logOf : String → Option String) (now : String) (nowT : Int)
    (parseT : String → Int) (cfg : Config) (s : DaemonState) :
    lookupA k (check_task_completion alive logOf now nowT parseT cfg s taskId).tasks
      = lookupA k s.tasks := by
  rcases check_tasks_shape alive logOf now nowT parseT cfg s taskId with h | ⟨x, h⟩
  · rw [h]
  · rw [h, lookupA_insertA_ne (Ne.symm hne)]

theorem check_keysND (alive : String → Bool) (logOf : String → Option String)
    (now : String) (nowT : Int) (parseT : String → Int) (cfg : Config)
    (s : DaemonState) (taskId : String) (hnd : keysND s.tasks) :
    keysND (check_task_completion alive logOf now nowT parseT cfg s taskId).tasks := by
  rcases check_tasks_shape alive logOf now nowT parseT cfg s taskId with h | ⟨x, h⟩
  · rw [h]; exact hnd
  · rw [h]; exact keysND_insertA hnd taskId x

theorem fold_check_frame (alive : String → Bool) (logOf : String → Option String)
    (now : String) (nowT : Int) (parseT : String → Int) (cfg : Config)
    {k : String} (ids : List String) (s : DaemonState) (h : k ∉ ids) :
    lookupA k ((ids.foldl
      (fun acc taskId => check_task_completion alive logOf now nowT parseT cfg acc taskId)
      s).tasks) = lookupA k s.tasks := by
  induction ids generalizing s with
  | nil => rfl
  | cons i rest ih =>
    rw [List.foldl_cons]
    have hki : k ≠ i := fun e => h (by rw [e]; exact List.mem_cons_self _ _)
    have hrest : k ∉ rest := fun hm => h (List.mem_cons_of_mem _ hm)
    rw [ih _ hrest, check_frame hki]

theorem fold_check_keysND (alive : String → Bool) (logOf : String → Option String)
    (now : String) (nowT : Int) (parseT : String → Int) (cfg : Config)
    (ids : List String) (s : DaemonState) (hnd : keysND s.tasks) :
    keysND ((ids.foldl
      (fun acc taskId => check_task_completion alive logOf now nowT parseT cfg acc taskId)
      s).tasks) := by
  induction ids generalizing s with
  | nil => exact hnd
  | cons i rest ih =>
    rw [List.foldl_cons]
    exact ih _ (check_keysND alive logOf now nowT parseT cfg s i hnd)

theorem not_mem_running_ids {s : DaemonState} {k : String} {t : Task}
    (hnd : keysND s.tasks) (hl : lookupA k s.tasks = some t)
    (hs : t.status ≠ .running) : k ∉ running_ids s := by
  intro hm
  unfold running_ids at hm
  obtain ⟨e, he, hf⟩ := List.mem_map.mp hm
  obtain ⟨hmem, hrun⟩ := List.mem_filter.mp he
  obtain ⟨k2, v2⟩ := e
  have hk2 : k2 = k := hf
  have hlv : lookupA k s.tasks = some v2 := lookupA_eq_of_mem hnd (hk2 ▸ hmem)
  rw [hl] at hlv
  injection hlv with hv
  apply hs
  rw [hv]
  exact of_decide_eq_true hrun

theorem cleanup_tasks_lookup {nowT ret : Int} {parseT : String → Int} {s : DaemonState}
    {k : String} {t : Task} (hnd : keysND s.tasks) (hl : lookupA k s.tasks = some t) :
    lookupA k (cleanup_old_tasks nowT ret parseT s).tasks =
      if sweptB (nowT - ret * 86400) parseT t then none else some t := by
  have htasks : (cleanup_old_tasks nowT ret parseT s).tasks
      = s.tasks.filter (fun e => !sweptB (nowT - ret * 86400) parseT e.2) := rfl
  rw [htasks, lookupA_filter_nodup hnd hl]
  by_cases h : sweptB (nowT - ret * 86400) parseT t
  · simp [h]
  · simp [h]

theorem execute_task_ok {s : DaemonState} {k : String} {t : Task} {cfg : Config}
    (hl : lookupA k s.tasks = some t)
    (htool : (toolLookup t.tool cfg.ai_tools).isSome = true)
    (ws now logStartTs t2 t3 err : String) :
    execute_task ws now logStartTs t2 t3 true err cfg s k =
      (updTask s k { t with status := .running, started_at := some now },
       execute_task_inputs ws logStartTs t2 t3 cfg k
         { t with status := .running, started_at := some now },
       true) := by
  obtain ⟨tc, htc⟩ := Option.isSome_iff_exists.mp htool
  unfold execute_task
  rw [hl]
  show (match toolLookup t.tool cfg.ai_tools with
    | none => _
    | some _ => _) = _
  rw [htc]
  rfl

/-! ## Claim C1 - terminal states and the daemon operations -/

/-- Claim C1 counterexample: the claim says killTask never sets a
completed task to failed, but kill_task performs no terminal-status
check - killing a completed task turns its status into failed. -/
theorem c1_counterexample :
    (lookupA "t1"
      (kill_task "t1" "manual" "2024-06-02T00:00:00" (oneTaskState doneTask)).2.tasks).map
      Task.status = some Status.failed
    ∧ doneTask.status = Status.completed := by decide

/-- Claim C1 (amended): the monitor parts of the claim hold - a
monitor tick never changes a terminal task's status (its per-task pass
visits only running entries; the retention sweep can at most delete the
record unchanged) - but the other two operations do rewrite terminal
states: kill_task sets any known task to failed (returning true), and a
worker that dequeues a known task's id marks it running regardless of
its previous status. -/
theorem c1_terminal_behaviour :
    (∀ (alive : String → Bool) (logOf : String → Option String) (now : String)
       (nowT : Int) (parseT : String → Int) (cfg : Config) (s : DaemonState)
       (k : String) (t : Task),
       keysND s.tasks → lookupA k s.tasks = some t → t.status.isTerminal = true →
       lookupA k (monitor_tick alive logOf now nowT parseT cfg s).tasks = some t ∨
       lookupA k (monitor_tick alive logOf now nowT parseT cfg s).tasks = none)
    ∧ (∀ (reason now : String) (s : DaemonState) (k : String) (t : Task),
       lookupA k s.tasks = some t →
       (kill_task k reason now s).1 = true ∧
       (lookupA k (kill_task k reason now s).2.tasks).map Task.status
         = some Status.failed)
    ∧ (∀ (ws now logStartTs t2 t3 err : String) (cfg : Config) (s : DaemonState)
       (k : String) (t : Task) (rest : List String),
       s.queue = k :: rest → lookupA k s.tasks = some t →
       (toolLookup t.tool cfg.ai_tools).isSome = true →
       (lookupA k (worker_step ws now logStartTs t2 t3 true err cfg s).1.tasks).map
         Task.status = some Status.running) := by
  refine ⟨?_, ?_, ?_⟩
  · intro alive logOf now nowT parseT cfg s k t hnd hl hterm
    have hnr : t.status ≠ .running := by
      intro e
      rw [e] at hterm
      simp [Status.isTerminal] at hterm
    have hnm : k ∉ running_ids s := not_mem_running_ids hnd hl hnr
    have h1 : lookupA k ((running_ids s).foldl
        (fun acc taskId => check_task_completion alive logOf now nowT parseT cfg acc taskId)
        s).tasks = some t := by
      rw [fold_check_frame alive logOf now nowT parseT cfg (running_ids s) s hnm]
      exact hl
    have hnd1 := fold_check_keysND alive logOf now nowT parseT cfg (running_ids s) s hnd
    show lookupA k (cleanup_old_tasks nowT cfg.log_retention_days parseT _).tasks = some t ∨
      lookupA k (cleanup_old_tasks nowT cfg.log_retention_days parseT _).tasks = none
    rw [cleanup_tasks_lookup hnd1 h1]
    by_cases h : sweptB (nowT - cfg.log_retention_days * 86400) parseT t
    · rw [if_pos h]
      exact Or.inr rfl
    · rw [if_neg h]
      exact Or.inl rfl
  · intro reason now s k t hl
    have h2 : (kill_task k reason now s).2.tasks
        = insertA k (killed_task reason now t) s.tasks := by
      unfold kill_task
      rw [hl]
      rfl
    have h1 : (kill_task k reason now s).1 = true := by
      unfold kill_task
      rw [hl]
    refine ⟨h1, ?_⟩
    rw [h2, lookupA_insertA_self]
    rfl
  · intro ws now logStartTs t2 t3 err cfg s k t rest hq hl htool
    have hstep : worker_step ws now logStartTs t2 t3 true err cfg s
        = execute_task ws now logStartTs t2 t3 true err cfg { s with queue := rest } k := by
      unfold worker_step
      rw [hq]
      show (if (lookupA k s.tasks).isSome then _ else _) = _
      rw [hl]
      rfl
    rw [hstep,
      execute_task_ok (s := { s with queue := rest }) hl htool ws now logStartTs t2 t3 err]
    show (lookupA k (insertA k _ s.tasks)).map Task.status = some Status.running
    rw [lookupA_insertA_self]
    rfl

/-- Witness for the amended C1, at concrete inputs: a completed task
survives a full monitor tick untouched (here: retained), a kill of the
same state flips it to failed while answering true, and a worker
dequeue of a queued id marks it running. -/
theorem c1_witness :
    (lookupA "t1" (monitor_tick (fun _ => false) (fun _ => none) "N" 0 (fun _ => 0)
        demoCfg (oneTaskState doneTask)).tasks = some doneTask ∨
     lookupA "t1" (monitor_tick (fun _ => false) (fun _ => none) "N" 0 (fun _ => 0)
        demoCfg (oneTaskState doneTask)).tasks = none)
    ∧ ((kill_task "t1" "manual" "K" (oneTaskState doneTask)).1 = true ∧
       (lookupA "t1" (kill_task "t1" "manual" "K" (oneTaskState doneTask)).2.tasks).map
         Task.status = some Status.failed)
    ∧ (lookupA "t1" (worker_step "WS" "N" "LS" "T2" "T3" true "E" demoCfg
        { oneTaskState baseTask with queue := ["t1"] }).1.tasks).map Task.status
        = some Status.running :=
  ⟨c1_terminal_behaviour.1 (fun _ => false) (fun _ => none) "N" 0 (fun _ => 0)
      demoCfg (oneTaskState doneTask) "t1" doneTask (by decide) (by decide) (by decide),
   c1_terminal_behaviour.2.1 "manual" "K" (oneTaskState doneTask) "t1" doneTask (by decide),
   c1_terminal_behaviour.2.2 "WS" "N" "LS" "T2" "T3" "E" demoCfg
      { oneTaskState baseTask with queue := ["t1"] } "t1" baseTask [] rfl (by decide)
      (by decide)⟩

/-! ## Claim C2 - kill idempotence on terminal tasks -/

/-- Claim C2 counterexample: killing an already-failed task is not a
no-op - it overwrites error_message and completed_at with fresh
values (while still returning true). -/
theorem c2_counterexample :
    (kill_task "t1" "manual" "2024-06-02T09:00:00" (oneTaskState failedTask)).1 = true
    ∧ (lookupA "t1"
        (kill_task "t1" "manual" "2024-06-02T09:00:00" (oneTaskState failedTask)).2.tasks).map
        Task.completed_at ≠ some failedTask.completed_at
    ∧ (lookupA "t1"
        (kill_task "t1" "manual" "2024-06-02T09:00:00" (oneTaskState failedTask)).2.tasks).map
        Task.error_message ≠ some failedTask.error_message := by decide

/-- Claim C2 (amended): kill_task on any known task - terminal or
not - returns true, but instead of being a no-op it unconditionally
rewrites the record: status becomes failed, error_message becomes the
kill reason, completed_at becomes the time of the kill call.  Only the
returned boolean matches the claim. -/
theorem c2_kill_not_idempotent (reason now : String) (s : DaemonState)
    (k : String) (t : Task) (hl : lookupA k s.tasks = some t) :
    (kill_task k reason now s).1 = true
    ∧ lookupA k (kill_task k reason now s).2.tasks = some (killed_task reason now t) := by
  have h2 : (kill_task k reason now s).2.tasks
      = insertA k (killed_task reason now t) s.tasks := by
    unfold kill_task
    rw [hl]
    rfl
  have h1 : (kill_task k reason now s).1 = true := by
    unfold kill_task
    rw [hl]
  exact ⟨h1, by rw [h2, lookupA_insertA_self]⟩

/-- Witness for the amended C2 at a concrete input: a second kill of an
already-killed task returns true and stamps the new time. -/
theorem c2_witness :
    (kill_task "t1" "again" "2024-06-03T00:00:00"
       (kill_task "t1" "manual" "2024-06-02T09:00:00" (oneTaskState failedTask)).2).1 = true
    ∧ lookupA "t1" (kill_task "t1" "again" "2024-06-03T00:00:00"
        (kill_task "t1" "manual" "2024-06-02T09:00:00" (oneTaskState failedTask)).2).2.tasks
      = some (killed_task "again" "2024-06-03T00:00:00"
          (killed_task "manual" "2024-06-02T09:00:00" failedTask)) :=
  c2_kill_not_idempotent "again" "2024-06-03T00:00:00"
    (kill_task "t1" "manual" "2024-06-02T09:00:00" (oneTaskState failedTask)).2
    "t1" _ (by decide)

/-! ## Claim C3 - the success sentinel and final progress -/

/-- Claim C3 (code bug): finalizing a running task whose log holds an
error-keyword line, a progress line and the success sentinel.  The
success branch is indeed checked first and wins (status completed,
completed_at taken from the marker, despite the word error earlier in
the log), but the final progress is 65, not 100: the completed branch
assigns 100 and then the unconditional extract_progress_from_logs call
at the end of finalize_task_from_logs overwrites it with the last
matched pattern. -/
theorem c3_progress_overwritten :
    (lookupA "t1" (finalize_task_from_logs
        (fun _ => some "error: transient\nProgress: 65%\n[TASK_COMPLETED:t1:2024-06-01T02:00:00]")
        "2024-06-01T03:00:00" (oneTaskState runTask) "t1").tasks).map
      (fun t => (t.status, t.progress, t.completed_at))
      = some (Status.completed, 65, some "2024-06-01T02:00:00") := by decide

/-! ## Claim C4 - monitor ticks while alive and under timeout -/

/-- Claim C4 counterexample: a monitor check of a running task with a
live session under its timeout does NOT re-run progress extraction - it
leaves the state (and hence progress 0) completely unchanged even
though the log matches a progress pattern with value 41; and when
extraction does run (at finalization) it applies no clamp at all: a
log reading 100 percent yields 100, not 99. -/
theorem c4_counterexample :
    check_task_completion (fun _ => true) (fun _ => some "Progress: 41%") "N" 0 (fun _ => 0)
      demoCfg (oneTaskState runTask) "t1" = oneTaskState runTask
    ∧ (lookupA "t1" (check_task_completion (fun _ => true) (fun _ => some "Progress: 41%")
        "N" 0 (fun _ => 0) demoCfg (oneTaskState runTask) "t1").tasks).map Task.progress
      = some 0
    ∧ extract_progress "Progress: 41%" 0 = 41
    ∧ extract_progress "Progress: 100%" 0 = 100 := by decide

/-- Claim C4 (amended): while the session is alive and the elapsed time
since started_at does not exceed the effective timeout, a monitor check
changes nothing at all - neither status nor progress; progress
extraction happens only at finalization (and is unclamped there).  In
particular progress cannot reach 100 while running, but only because it
is never touched while running. -/
theorem c4_alive_tick_noop (alive : String → Bool) (logOf : String → Option String)
    (now : String) (nowT : Int) (parseT : String → Int) (cfg : Config)
    (s : DaemonState) (taskId : String) (t : Task)
    (hl : lookupA taskId s.tasks = some t)
    (halive : alive t.session_name = true)
    (hto : ∀ st, t.started_at = some st → ∀ tmo, eff_timeout cfg t = some tmo →
      nowT - parseT st ≤ tmo) :
    check_task_completion alive logOf now nowT parseT cfg s taskId = s := by
  unfold check_task_completion
  rw [hl]
  simp only [halive, if_true]
  cases hst : t.started_at with
  | none => rfl
  | some st =>
    cases htm : eff_timeout cfg t with
    | none => rfl
    | some tmo =>
      have hle := hto st hst tmo htm
      show (if nowT - parseT st > tmo then (kill_task taskId "timeout" now s).2 else s) = s
      rw [if_neg (by omega)]

/-- Witness for the amended C4 at the concrete fixture. -/
theorem c4_witness :
    check_task_completion (fun _ => true) (fun _ => some "Progress: 41%") "N" 0 (fun _ => 0)
      demoCfg (oneTaskState runTask) "t1" = oneTaskState runTask :=
  c4_alive_tick_noop (fun _ => true) (fun _ => some "Progress: 41%") "N" 0 (fun _ => 0)
    demoCfg (oneTaskState runTask) "t1" runTask (by decide) (by decide)
    (by
      intro st hst tmo htm
      have h2 : eff_timeout demoCfg runTask = some 1800 := by decide
      rw [h2] at htm
      injection htm with h3
      rw [← h3]
      show (0 : Int) - 0 ≤ 1800
      decide)

/-! ## Claim C5 - startup recovery -/

/-- Claim C5 (code bug): recovery over a running record and a queued
record, with the session provider answering alive for every session.
The queued record is re-enqueued exactly once, but the running record
is finalized failed (Process died unexpectedly) even though its
session is alive: is_task_running short-circuits to False because the
record's pid is null - and the daemon never assigns pid anywhere, so
the keep-running branch is unreachable. -/
theorem c5_recovery_divergence :
    (lookupA "t5r" (load_tasks (fun _ => true) "2024-06-02T00:00:00"
        [recRunning, recQueued] recoveryState).tasks).map
      (fun t => (t.status, t.error_message))
      = some (Status.failed, some "Process died unexpectedly")
    ∧ (load_tasks (fun _ => true) "2024-06-02T00:00:00"
        [recRunning, recQueued] recoveryState).queue = ["t5q"]
    ∧ is_task_running (fun _ => true) recRunning = false
    ∧ recRunning.pid = none := by decide

/-! ## Claim C7 - the dispatched input sequence -/

/-- Claim C7 (code bug): the input sequence execute_task sends for a
plain crush task.  The fully built invocation appears twice: once as a
bare, ungated input (so the tool runs immediately), and then again
inside the marker-gated compound line (so it runs a second time).  The
claim says it is sent exactly once and never ungated. -/
theorem c7_double_dispatch :
    (execute_task "WS" "N" "LS" "T2" "T3" true "E" demoCfg (oneTaskState baseTask) "t1").2.1
      = ["mkdir -p WS/logs",
         "exec > >(tee WS/logs/t1.log)",
         "exec 2>&1",
         "echo '[LS] Starting task t1'",
         "source BASHRC",
         "timeout 1800 crush hello",
         "timeout 1800 crush hello && echo '[TASK_COMPLETED:t1:T2]' || echo '[TASK_FAILED:t1:T3]'"]
    ∧ ((execute_task "WS" "N" "LS" "T2" "T3" true "E" demoCfg (oneTaskState baseTask)
        "t1").2.1.filter
        (fun i => containsS i (build_task_command "WS" demoCfg baseTask))).length = 2
    ∧ (execute_task "WS" "N" "LS" "T2" "T3" true "E" demoCfg (oneTaskState baseTask)
        "t1").2.1.count (build_task_command "WS" demoCfg baseTask) = 1 := by decide

/-! ## Claim C6 - atomicity of save_task -/

/-- Claim C6 counterexample: the write trace of save_task is not
atomic.  From a disk where the record file holds OLDRECORD, the state
after the first operation of the trace - the truncating open - shows
an empty file at the record path: a reader at that instant observes
neither the old record nor the new one. -/
theorem c6_counterexample :
    ¬ AtomicWrite (save_task_trace (task_record_path "WS" "t1") "NEWRECORD")
        (task_record_path "WS" "t1") "NEWRECORD" := by
  intro h
  have h1 := h (fun _ => some "OLDRECORD") 1
  have h2 : runFs (fun _ => some "OLDRECORD")
      ((save_task_trace (task_record_path "WS" "t1") "NEWRECORD").take 1)
      (task_record_path "WS" "t1") = some "" := by decide
  rw [h2] at h1
  rcases h1 with h1 | h1
  · exact absurd h1 (by decide)
  · exact absurd h1 (by decide)

/-- Claim C6 (amended): save_task does persist the full record - once
the trace completes, the record path holds exactly the new content -
but the write is not atomic: the file is truncated in place before the
content is written, so whenever the new record is nonempty and the disk
did not already show an empty file at that path, there is an
intermediate observable state (after the truncating open) in which a
reader sees an empty file, violating the
never-observe-a-partial-record property.  No temp file and no rename
occur anywhere in the trace. -/
theorem c6_save_not_atomic :
    (∀ (path content : String) (d0 : String → Option String),
       runFs d0 (save_task_trace path content) path = some content)
    ∧ (∀ path content : String, content ≠ "" →
       ∀ d0 : String → Option String, d0 path ≠ some "" →
       ¬ AtomicWrite (save_task_trace path content) path content) := by
  constructor
  · intro path content d0
    simp [save_task_trace, runFs, applyFsOp]
  · intro path content hc d0 hd h
    have h1 := h d0 1
    have h2 : runFs d0 ((save_task_trace path content).take 1) path = some "" := by
      simp [save_task_trace, runFs, applyFsOp]
    rw [h2] at h1
    rcases h1 with h1 | h1
    · exact hd h1.symm
    · refine hc ?_
      injection h1 with h3
      exact h3.symm

/-- Witness for the amended C6 at concrete inputs. -/
theorem c6_witness :
    runFs (fun _ => none) (save_task_trace "WS/tasks/t1.json" "REC") "WS/tasks/t1.json"
      = some "REC"
    ∧ ¬ AtomicWrite (save_task_trace "WS/tasks/t1.json" "REC") "WS/tasks/t1.json" "REC" :=
  ⟨c6_save_not_atomic.1 "WS/tasks/t1.json" "REC" (fun _ => none),
   c6_save_not_atomic.2 "WS/tasks/t1.json" "REC" (by decide) (fun _ => none) (by decide)⟩

/-! ## Claim C8 - create_task validation -/

/-- Python truthiness failure of an optional string, spelled out. -/
theorem falsyO_eq_true_iff (o : Option String) :
    falsyO o = true ↔ o = none ∨ o = some "" := by
  cases o with
  | none => simp [falsyO]
  | some s =>
    simp [falsyO, String.isEmpty_iff]

/-- Claim C8: create_task fails exactly when the request's tool or
command is missing (absent, null or empty - Python truthiness) or the
tool is not a key of the tool table; on failure the ValueError is
raised before persistence, so the state - record files, in-memory map
and queue - is unchanged; on success the returned id maps to the new
record, whose status is queued, and the id was appended to the queue
exactly once. -/
theorem c8_create_task_validation (taskId now ws : String) (req : TaskRequest)
    (cfg : Config) (s : DaemonState) :
    ((create_task taskId now ws req cfg s).1 = .error () ↔
      (req.tool = none ∨ req.tool = some "" ∨ req.command = none ∨ req.command = some ""
        ∨ toolLookup req.tool cfg.ai_tools = none))
    ∧ ((create_task taskId now ws req cfg s).1 = .error () →
        (create_task taskId now ws req cfg s).2 = s)
    ∧ ((create_task taskId now ws req cfg s).1 = .ok taskId →
        lookupA taskId (create_task taskId now ws req cfg s).2.tasks
          = some (new_task taskId now ws req)
        ∧ (new_task taskId now ws req).status = .queued
        ∧ (create_task taskId now ws req cfg s).2.queue = s.queue ++ [taskId]) := by
  have hiff : validate_task cfg (new_task taskId now ws req) = false ↔
      (req.tool = none ∨ req.tool = some "" ∨ req.command = none ∨ req.command = some ""
        ∨ toolLookup req.tool cfg.ai_tools = none) := by
    unfold validate_task
    show (!falsyO req.tool && !falsyO req.command
        && (toolLookup req.tool cfg.ai_tools).isSome) = false ↔ _
    rcases hft : falsyO req.tool with _ | _
    · rcases hfc : falsyO req.command with _ | _
      · cases hlk : toolLookup req.tool cfg.ai_tools with
        | none =>
          constructor
          · intro _
            exact Or.inr (Or.inr (Or.inr (Or.inr rfl)))
          · intro _
            decide
        | some tc =>
          constructor
          · intro hx
            simp at hx
          · intro hx
            rcases hx with hx | hx | hx | hx | hx
            · have h2 := (falsyO_eq_true_iff req.tool).mpr (Or.inl hx)
              rw [h2] at hft
              exact Bool.noConfusion hft
            · have h2 := (falsyO_eq_true_iff req.tool).mpr (Or.inr hx)
              rw [h2] at hft
              exact Bool.noConfusion hft
            · have h2 := (falsyO_eq_true_iff req.command).mpr (Or.inl hx)
              rw [h2] at hfc
              exact Bool.noConfusion hfc
            · have h2 := (falsyO_eq_true_iff req.command).mpr (Or.inr hx)
              rw [h2] at hfc
              exact Bool.noConfusion hfc
            · exact Option.noConfusion hx
      · have h2 := (falsyO_eq_true_iff req.command).mp hfc
        constructor
        · intro _
          tauto
        · intro _
          simp
    · have h2 := (falsyO_eq_true_iff req.tool).mp hft
      constructor
      · intro _
        tauto
      · intro _
        simp
  by_cases hv : validate_task cfg (new_task taskId now ws req) = true
  · have hres : create_task taskId now ws req cfg s
        = (.ok taskId,
           { s with
             tasks := insertA taskId (new_task taskId now ws req) s.tasks,
             disk := insertA taskId (new_task taskId now ws req) s.disk,
             queue := s.queue ++ [taskId] }) := by
      unfold create_task
      rw [if_pos hv]
    refine ⟨?_, ?_, ?_⟩
    · rw [hres]
      constructor
      · intro hbad
        exact absurd hbad (by simp)
      · intro hrhs
        have := hiff.mpr hrhs
        rw [hv] at this
        exact absurd this (by decide)
    · intro hbad
      rw [hres] at hbad
      exact absurd hbad (by simp)
    · intro _
      rw [hres]
      refine ⟨?_, rfl, rfl⟩
      show lookupA taskId (insertA taskId (new_task taskId now ws req) s.tasks)
        = some (new_task taskId now ws req)
      exact lookupA_insertA_self _ _ _
  · have hvf : validate_task cfg (new_task taskId now ws req) = false :=
      Bool.eq_false_iff.mpr hv
    have hres : create_task taskId now ws req cfg s = (.error (), s) := by
      unfold create_task
      rw [if_neg (by simp [hvf])]
    refine ⟨?_, ?_, ?_⟩
    · rw [hres]
      simp only [true_iff]
      exact hiff.mp hvf
    · intro _
      rw [hres]
    · intro hok
      rw [hres] at hok
      exact absurd hok (by simp)

/-- Witness for C8: a valid request succeeds with a queued record; an
unknown tool is rejected with the state unchanged. -/
theorem c8_witness :
    ((create_task "task-1" "N" "WS"
        { tool := some "crush", command := some "run", parameters := [],
          working_dir := none, priority := none, timeout := none }
        demoCfg (oneTaskState doneTask)).1 = .error () ↔
      ((some "crush" : Option String) = none ∨ (some "crush" : Option String) = some ""
        ∨ (some "run" : Option String) = none ∨ (some "run" : Option String) = some ""
        ∨ toolLookup (some "crush") demoCfg.ai_tools = none))
    ∧ ((create_task "task-1" "N" "WS"
        { tool := some "crush", command := some "run", parameters := [],
          working_dir := none, priority := none, timeout := none }
        demoCfg (oneTaskState doneTask)).1 = .error () →
        (create_task "task-1" "N" "WS"
        { tool := some "crush", command := some "run", parameters := [],
          working_dir := none, priority := none, timeout := none }
        demoCfg (oneTaskState doneTask)).2 = oneTaskState doneTask)
    ∧ ((create_task "task-1" "N" "WS"
        { tool := some "crush", command := some "run", parameters := [],
          working_dir := none, priority := none, timeout := none }
        demoCfg (oneTaskState doneTask)).1 = .ok "task-1" →
        lookupA "task-1" (create_task "task-1" "N" "WS"
        { tool := some "crush", command := some "run", parameters := [],
          working_dir := none, priority := none, timeout := none }
        demoCfg (oneTaskState doneTask)).2.tasks
          = some (new_task "task-1" "N" "WS"
            { tool := some "crush", command := some "run", parameters := [],
              working_dir := none, priority := none, timeout := none })
        ∧ (new_task "task-1" "N" "WS"
            { tool := some "crush", command := some "run", parameters := [],
              working_dir := none, priority := none, timeout := none }).status = .queued
        ∧ (create_task "task-1" "N" "WS"
        { tool := some "crush", command := some "run", parameters := [],
          working_dir := none, priority := none, timeout := none }
        demoCfg (oneTaskState doneTask)).2.queue = (oneTaskState doneTask).queue ++ ["task-1"]) :=
  c8_create_task_validation "task-1" "N" "WS"
    { tool := some "crush", command := some "run", parameters := [],
      working_dir := none, priority := none, timeout := none }
    demoCfg (oneTaskState doneTask)

/-! ## Claim C9 - the retention sweep boundary -/

/-- Claim C9: on a retention sweep, a terminal task whose parsed
completed_at lies strictly before the cutoff (now minus
log_retention_days days) loses its in-memory entry, its record file and
its log file, while a terminal task whose completed_at is at or after
the cutoff - even by one second - keeps its in-memory entry and its
record file untouched. -/
theorem c9_retention_sweep (nowT ret : Int) (parseT : String → Int)
    (s : DaemonState) (k ca : String) (t : Task)
    (hnd : keysND s.tasks) (hl : lookupA k s.tasks = some t)
    (hterm : t.status.isTerminal = true) (hca : t.completed_at = some ca) :
    (parseT ca < nowT - ret * 86400 →
       lookupA k (cleanup_old_tasks nowT ret parseT s).tasks = none
       ∧ lookupA k (cleanup_old_tasks nowT ret parseT s).disk = none
       ∧ t.log_file ∉ (cleanup_old_tasks nowT ret parseT s).logs)
    ∧ (¬ parseT ca < nowT - ret * 86400 →
       lookupA k (cleanup_old_tasks nowT ret parseT s).tasks = some t
       ∧ lookupA k (cleanup_old_tasks nowT ret parseT s).disk = lookupA k s.disk) := by
  have hdisk : (cleanup_old_tasks nowT ret parseT s).disk
      = s.disk.filter fun e => decide (e.1 ∉
          (s.tasks.filter fun e2 => sweptB (nowT - ret * 86400) parseT e2.2).map
            Prod.fst) := rfl
  have hlogs : (cleanup_old_tasks nowT ret parseT s).logs
      = s.logs.filter fun p => decide (p ∉
          (s.tasks.filter fun e2 => sweptB (nowT - ret * 86400) parseT e2.2).map
            fun e2 => e2.2.log_file) := rfl
  constructor
  · intro hlt
    have hsw : sweptB (nowT - ret * 86400) parseT t = true := by
      unfold sweptB
      rw [hterm, hca]
      simp [hlt]
    have hment : (k, t) ∈ s.tasks.filter
        fun e2 => sweptB (nowT - ret * 86400) parseT e2.2 :=
      List.mem_filter.mpr ⟨mem_of_lookupA hl, hsw⟩
    refine ⟨?_, ?_, ?_⟩
    · rw [cleanup_tasks_lookup hnd hl, if_pos hsw]
    · have hmemswept : k ∈ (s.tasks.filter
          fun e2 => sweptB (nowT - ret * 86400) parseT e2.2).map Prod.fst :=
        List.mem_map.mpr ⟨(k, t), hment, rfl⟩
      rw [hdisk]
      apply lookupA_filter_of_none
      intro v
      simp [hmemswept]
    · intro hm
      rw [hlogs] at hm
      have hkept := (List.mem_filter.mp hm).2
      have hmem2 : t.log_file ∈ (s.tasks.filter
          fun e2 => sweptB (nowT - ret * 86400) parseT e2.2).map fun e2 => e2.2.log_file :=
        List.mem_map.mpr ⟨(k, t), hment, rfl⟩
      exact (of_decide_eq_true hkept) hmem2
  · intro hge
    have hsw : sweptB (nowT - ret * 86400) parseT t = false := by
      unfold sweptB
      rw [hterm, hca]
      simp [hge]
    have hknot : k ∉ (s.tasks.filter
        fun e2 => sweptB (nowT - ret * 86400) parseT e2.2).map Prod.fst := by
      intro hmem
      obtain ⟨e, he, hf⟩ := List.mem_map.mp hmem
      obtain ⟨hmem2, hswe⟩ := List.mem_filter.mp he
      obtain ⟨k2, v2⟩ := e
      cases hf
      have hv2 := lookupA_eq_of_mem hnd hmem2
      rw [hl] at hv2
      injection hv2 with hv
      rw [← hv, hsw] at hswe
      exact Bool.noConfusion hswe
    constructor
    · rw [cleanup_tasks_lookup hnd hl, if_neg (by simp [hsw])]
    · rw [hdisk]
      apply lookupA_filter_of_all
      intro v
      simp [hknot]

/-- Witness for C9: a task completed eight days ago with a seven-day
retention window is reclaimed from memory, record store and log store
(here parseT sends every timestamp to second zero and now is day
eight). -/
theorem c9_witness :
    ((0 : Int) < 86400 * 8 - 7 * 86400 →
       lookupA "t1" (cleanup_old_tasks (86400 * 8) 7 (fun _ => 0)
         (oneTaskState doneTask)).tasks = none
       ∧ lookupA "t1" (cleanup_old_tasks (86400 * 8) 7 (fun _ => 0)
         (oneTaskState doneTask)).disk = none
       ∧ doneTask.log_file ∉ (cleanup_old_tasks (86400 * 8) 7 (fun _ => 0)
         (oneTaskState doneTask)).logs)
    ∧ (¬ (0 : Int) < 86400 * 8 - 7 * 86400 →
       lookupA "t1" (cleanup_old_tasks (86400 * 8) 7 (fun _ => 0)
         (oneTaskState doneTask)).tasks = some doneTask
       ∧ lookupA "t1" (cleanup_old_tasks (86400 * 8) 7 (fun _ => 0)
         (oneTaskState doneTask)).disk = lookupA "t1" (oneTaskState doneTask).disk) :=
  c9_retention_sweep (86400 * 8) 7 (fun _ => 0) (oneTaskState doneTask)
    "t1" "2024-06-01T01:00:00" doneTask (by decide) (by decide) (by decide) (by decide)

/-! ## Claim C10 - where completed_at comes from

Lemma layer: appending and scanning facts about the character-level
model, then the round-trip of the dispatch-time stamp through the log
into completed_at. -/

theorem toListAppend (a b : String) : (a ++ b).toList = a.toList ++ b.toList := rfl

theorem mk_toList (s : String) : String.mk s.toList = s := rfl

theorem dropStart?_append (p r : List Char) : dropStart? p (p ++ r) = some r := by
  induction p with
  | nil => rfl
  | cons c cs ih => simp [dropStart?, ih]

theorem containsL_cons (c : Char) (rest pat : List Char) :
    containsL (c :: rest) pat
      = ((dropStart? pat (c :: rest)).isSome || containsL rest pat) := rfl

theorem containsL_self_append (p y : List Char) : containsL (p ++ y) p = true := by
  cases p with
  | nil =>
    cases y with
    | nil => rfl
    | cons c cs =>
      rw [List.nil_append, containsL_cons]
      simp [dropStart?]
  | cons c cs =>
    rw [List.cons_append, containsL_cons, ← List.cons_append, dropStart?_append]
    simp

theorem containsL_append_left (x l p : List Char) (h : containsL l p = true) :
    containsL (x ++ l) p = true := by
  induction x with
  | nil => simpa using h
  | cons c cs ih =>
    rw [List.cons_append, containsL_cons, ih]
    simp

theorem takeWhile_append_stop (q : Char → Bool) (a : List Char) (b : Char) (r : List Char)
    (ha : ∀ c ∈ a, q c = true) (hb : q b = false) :
    (a ++ b :: r).takeWhile q = a := by
  induction a with
  | nil => simp [hb]
  | cons c cs ih =>
    have hc : q c = true := ha c (List.mem_cons_self _ _)
    rw [List.cons_append, List.takeWhile_cons, hc]
    simp [ih fun d hd => ha d (List.mem_cons_of_mem _ hd)]

theorem searchMarkerL_cons (pat : List Char) (c : Char) (rest : List Char) :
    searchMarkerL pat (c :: rest)
      = (match dropStart? pat (c :: rest) with
         | some r =>
           (match tsAfter? r with
            | some ts => some ts
            | none => searchMarkerL pat rest)
         | none => searchMarkerL pat rest) := rfl

theorem searchMarkerL_skip (pat pre l : List Char)
    (h : ∀ i < pre.length, dropStart? pat ((pre ++ l).drop i) = none) :
    searchMarkerL pat (pre ++ l) = searchMarkerL pat l := by
  induction pre with
  | nil => rfl
  | cons c cs ih =>
    rw [List.cons_append, searchMarkerL_cons]
    have h0 : dropStart? pat (c :: (cs ++ l)) = none := by
      have := h 0 (by simp)
      simpa using this
    rw [h0]
    exact ih fun i hi => by
      have := h (i + 1) (by simpa using Nat.succ_lt_succ hi)
      simpa using this

theorem searchMarkerL_found (pat ts post2 : List Char) (hpat : pat ≠ [])
    (hts : ts ≠ []) (hts2 : ∀ c ∈ ts, c ≠ ']') :
    searchMarkerL pat (pat ++ (ts ++ ']' :: post2)) = some ts := by
  have hrun : (ts ++ ']' :: post2).takeWhile (fun c => !(c = ']' : Bool)) = ts := by
    apply takeWhile_append_stop
    · intro c hc
      simp [hts2 c hc]
    · simp
  have htsa : tsAfter? (ts ++ ']' :: post2) = some ts := by
    simp only [tsAfter?]
    rw [hrun]
    have h1 : ts.isEmpty = false := by
      cases ts with
      | nil => exact absurd rfl hts
      | cons a b => rfl
    rw [h1]
    have h2 : ts.length < (ts ++ ']' :: post2).length := by
      rw [List.length_append, List.length_cons]
      omega
    simp [h2]
  obtain ⟨p, pr, rfl⟩ : ∃ p pr, pat = p :: pr := by
    cases pat with
    | nil => exact absurd rfl hpat
    | cons p pr => exact ⟨p, pr, rfl⟩
  rw [List.cons_append, searchMarkerL_cons, ← List.cons_append, dropStart?_append]
  simp only [htsa]

theorem completedSentinel_toList (id ts : String) :
    (completedSentinel id ts).toList
      = (completedMark id).toList ++ (ts.toList ++ [']']) := by
  show ((completedMark id ++ ts) ++ "]").toList = _
  rw [toListAppend, toListAppend, List.append_assoc]
  rfl

/-- Claim C10: the success timestamp round-trips from dispatch to
finalization.  The marker line execute_task sends embeds, inside the
gated echo, the full success sentinel stamped with the
datetime.now().isoformat() taken while the command line was being
built (parameter t2); and when the log examined at finalization
contains that sentinel (with no earlier occurrence of the sentinel
head), the finalized record reads status completed with completed_at
set to exactly that embedded stamp t2 - the dispatch-time stamp, not
the finalization time now. -/
theorem c10_completed_at_from_dispatch
    (cmd : String) (logOf : String → Option String) (now t2 t3 : String)
    (s : DaemonState) (taskId : String) (t : Task) (log : String)
    (pre post : List Char)
    (hl : lookupA taskId s.tasks = some t)
    (hlog : logOf t.log_file = some log)
    (hcontent : log.toList = pre ++ ((completedSentinel taskId t2).toList ++ post))
    (hnopre : ∀ i < pre.length,
      dropStart? (completedMark taskId).toList (log.toList.drop i) = none)
    (hts1 : t2 ≠ "") (hts2 : ']' ∉ t2.toList) :
    containsS (gated_command cmd taskId t2 t3) (completedSentinel taskId t2) = true
    ∧ ∃ t1, lookupA taskId (finalize_task_from_logs logOf now s taskId).tasks = some t1
        ∧ t1.status = .completed
        ∧ t1.completed_at = some t2
        ∧ (t2 ≠ now → t1.completed_at ≠ some now) := by
  constructor
  · show containsL (gated_command cmd taskId t2 t3).toList
      (completedSentinel taskId t2).toList = true
    have hsplit : (gated_command cmd taskId t2 t3).toList
        = (cmd.toList ++ (" && ".toList ++ "echo '".toList))
          ++ ((completedSentinel taskId t2).toList
            ++ ("'".toList ++ (" || echo '".toList
              ++ ((failedSentinel taskId t3).toList ++ "'".toList)))) := by
      simp [gated_command, completion_cmd, toListAppend, List.append_assoc]
    rw [hsplit]
    exact containsL_append_left _ _ _ (containsL_self_append _ _)
  · have hlogsplit : log.toList
        = pre ++ ((completedMark taskId).toList ++ (t2.toList ++ (']' :: post))) := by
      rw [hcontent, completedSentinel_toList]
      simp [List.append_assoc]
    have hcont : containsL log.toList (completedMark taskId).toList = true := by
      rw [hlogsplit]
      exact containsL_append_left _ _ _ (containsL_self_append _ _)
    have hcontS : containsS log (completedMark taskId) = true := hcont
    have hmark : (completedMark taskId).toList ≠ [] := by
      rw [show (completedMark taskId).toList
          = '[' :: (("TASK_COMPLETED:".toList ++ taskId.toList) ++ ":".toList) from rfl]
      exact List.cons_ne_nil _ _
    have hts1L : t2.toList ≠ [] := by
      intro h
      apply hts1
      rw [← mk_toList t2, h]
    have hnopre2 : ∀ i < pre.length,
        dropStart? (completedMark taskId).toList
          ((pre ++ ((completedMark taskId).toList
            ++ (t2.toList ++ (']' :: post)))).drop i) = none := by
      intro i hi
      have := hnopre i hi
      rw [hlogsplit] at this
      exact this
    have hsearch : searchMarkerL (completedMark taskId).toList log.toList
        = some t2.toList := by
      rw [hlogsplit, searchMarkerL_skip _ _ _ hnopre2]
      exact searchMarkerL_found _ _ _ hmark hts1L fun c hc he => hts2 (he ▸ hc)
    have hsearchS : searchMarkerS taskId log = some t2 := by
      unfold searchMarkerS
      rw [hsearch]
      rfl
    have hfin : finalize_task_from_logs logOf now s taskId
        = updTask s taskId { t with
            status := .completed,
            progress := extract_progress log 100,
            completed_at := some t2 } := by
      unfold finalize_task_from_logs
      rw [hl]
      simp only [hlog, hcontS, hsearchS, if_true, Option.getD_some]
    refine ⟨{ t with
        status := .completed,
        progress := extract_progress log 100,
        completed_at := some t2 }, ?_, rfl, rfl, ?_⟩
    · rw [hfin]
      exact lookupA_insertA_self _ _ _
    · intro hne heq
      injection heq with h2
      exact hne h2

/-- Witness for C10 at concrete inputs: a boot banner, then the
sentinel stamped with the dispatch-time value; finalization copies that
stamp - not the later finalization time - into completed_at. -/
theorem c10_witness :
    containsS (gated_command "timeout 1800 crush hello" "t1" "2024-06-01T02:00:00" "T3")
      (completedSentinel "t1" "2024-06-01T02:00:00") = true
    ∧ ∃ t1, lookupA "t1" (finalize_task_from_logs
        (fun _ => some "boot\n[TASK_COMPLETED:t1:2024-06-01T02:00:00]\n")
        "2024-06-01T03:00:00" (oneTaskState runTask) "t1").tasks = some t1
        ∧ t1.status = .completed
        ∧ t1.completed_at = some "2024-06-01T02:00:00"
        ∧ ("2024-06-01T02:00:00" ≠ "2024-06-01T03:00:00" →
            t1.completed_at ≠ some "2024-06-01T03:00:00") :=
  c10_completed_at_from_dispatch "timeout 1800 crush hello"
    (fun _ => some "boot\n[TASK_COMPLETED:t1:2024-06-01T02:00:00]\n")
    "2024-06-01T03:00:00" "2024-06-01T02:00:00" "T3" (oneTaskState runTask) "t1" runTask
    "boot\n[TASK_COMPLETED:t1:2024-06-01T02:00:00]\n" ("boot\n".toList) ("\n".toList)
    (by decide) rfl (by decide) (by decide) (by decide) (by decide)

end Daemon
